import Mathlib

/-!
Shallow embedding of the queue-coordination backend of the Peak-Team-1
repository (Express + Sequelize). Route handlers from
`src/Back-end/src/routes/queues.routes.js`,
`src/Back-end/src/routes/enterprise.queue.routes.js` and the auth routes
are modelled as pure functions over an explicit database state; Sequelize
attribute validation (`validate: min 0, max 4` on
`StandQueue.currentParticipants`) is modelled as a partial update that
leaves the row unchanged and surfaces a 500 error when violated, matching
Sequelize running attribute validators before any write.  Dates are
abstracted to a Bool presence flag (only `completedAt` is ever written or
cleared by the handlers under study).
-/

/-- `StandQueue.status` enum from `src/unnamed/part_001`. -/
inductive StandStatus where
  | Open
  | Full
  | Closed
deriving DecidableEq

/-- `QueueEntry.status` values.  The schema enum lists Waiting, Active,
Completed, Cancelled; the enterprise leave handler additionally writes the
string Left, which a sqlite-backed deployment stores as plain text, so it
is included as a distinct status value. -/
inductive EntryStatus where
  | Waiting
  | Active
  | Completed
  | Cancelled
  | Left
deriving DecidableEq

/-- A `StandQueue` row (src/unnamed/part_001). -/
structure StandQueue where
  id : Nat
  enterpriseId : Nat
  status : StandStatus
  currentParticipants : Int
  totalProcessed : Int
deriving DecidableEq

/-- A `QueueEntry` row (second model in `src/Back-end/src/models/user.js`). -/
structure QueueEntry where
  id : Nat
  userId : Nat
  standQueueId : Nat
  status : EntryStatus
  completedAt : Bool
deriving DecidableEq

/-- The database state visible to the queue routes.  `nextId` supplies the
fresh primary keys that the ORM would generate. -/
structure DB where
  stands : List StandQueue
  entries : List QueueEntry
  nextId : Nat
deriving DecidableEq

def DB.init : DB := { stands := [], entries := [], nextId := 0 }

/-- Sequelize attribute validation on `StandQueue.currentParticipants`:
`validate: { min: 0, max: 4 }` (src/unnamed/part_001 lines 19-26). -/
def validateCp (cp : Int) : Bool := decide (0 ≤ cp ∧ cp ≤ 4)

/-- `standQueue.update({currentParticipants, totalProcessed})`: runs the
attribute validators first; on failure nothing is written. -/
def StandQueue.updateCounts (s : StandQueue) (cp tp : Int) : Option StandQueue :=
  if validateCp cp then some { s with currentParticipants := cp, totalProcessed := tp }
  else none

/-- `StandQueue.findOne({ where: { enterpriseId } })`. -/
def DB.findStandByEnterprise (db : DB) (eid : Nat) : Option StandQueue :=
  db.stands.find? (fun s => decide (s.enterpriseId = eid))

/-- `StandQueue.findByPk`. -/
def DB.findStandByPk (db : DB) (sid : Nat) : Option StandQueue :=
  db.stands.find? (fun s => decide (s.id = sid))

/-- `QueueEntry.findByPk`. -/
def DB.findEntryByPk (db : DB) (qid : Nat) : Option QueueEntry :=
  db.entries.find? (fun e => decide (e.id = qid))

/-- Persist an updated stand row (all rows sharing the primary key). -/
def DB.setStand (db : DB) (s : StandQueue) : DB :=
  { db with stands := db.stands.map (fun t => if t.id = s.id then s else t) }

/-- Persist an updated entry row. -/
def DB.setEntry (db : DB) (e : QueueEntry) : DB :=
  { db with entries := db.entries.map (fun t => if t.id = e.id then e else t) }

def isWaitingOrActive (st : EntryStatus) : Bool :=
  decide (st = EntryStatus.Waiting ∨ st = EntryStatus.Active)

/-- `QueueEntry.count({ where: { userId, status: { [Op.in]: [Waiting, Active] } } })`. -/
def DB.countActiveEntries (db : DB) (uid : Nat) : Nat :=
  db.entries.countP (fun e => decide (e.userId = uid) && isWaitingOrActive e.status)

/-- HTTP-level outcome of a handler, keeping the literal response strings. -/
inductive ApiResult where
  | okEntry (e : QueueEntry)
  | okStand (s : StandQueue)
  | success
  | clientError (msg : String)
  | notFound (msg : String)
  | serverError
deriving DecidableEq

/-- POST /api/queues/join (queues.routes.js lines 83-133).  Counts the
Waiting/Active entries of the caller, rejects at 2; rejects a missing or
Closed stand; rejects a stand that is both Full and at 4 participants;
otherwise creates a Waiting entry.  The stand row is not modified. -/
def joinQueue (db : DB) (uid eid : Nat) : DB × ApiResult :=
  let activeQueues := db.countActiveEntries uid
  if 2 ≤ activeQueues then
    (db, .clientError "You can only be in 2 queues at a time")
  else
    match db.findStandByEnterprise eid with
    | none => (db, .clientError "This stand queue is not available")
    | some standQueue =>
      if standQueue.status = .Closed then
        (db, .clientError "This stand queue is not available")
      else if standQueue.status = .Full ∧ 4 ≤ standQueue.currentParticipants then
        (db, .clientError "This stand queue is full")
      else
        let queueEntry : QueueEntry :=
          { id := db.nextId, userId := uid, standQueueId := standQueue.id,
            status := .Waiting, completedAt := false }
        ({ db with entries := db.entries ++ [queueEntry], nextId := db.nextId + 1 },
         .okEntry queueEntry)

/-- POST /api/queues/:queueId/complete (queues.routes.js lines 150-176).
No status guard: any found entry is marked Completed before the stand row
is updated; the stand is decremented with a floor at 0 and totalProcessed
is incremented. -/
def completeEntry (db : DB) (qid : Nat) : DB × ApiResult :=
  match db.findEntryByPk qid with
  | none => (db, .notFound "Queue entry not found")
  | some entry =>
    let standOpt := db.findStandByPk entry.standQueueId
    let db1 := db.setEntry { entry with status := .Completed, completedAt := true }
    match standOpt with
    | none => (db1, .serverError)
    | some standQueue =>
      match standQueue.updateCounts (max 0 (standQueue.currentParticipants - 1))
          (standQueue.totalProcessed + 1) with
      | none => (db1, .serverError)
      | some s2 => (db1.setStand s2, .success)

/-- POST /api/queues/:queueId/uncomplete (queues.routes.js lines 193-219).
No status guard and no capacity guard in the handler: any found entry is
set to Active with completedAt cleared; the stand increment is stopped
only by the schema validator when it would exceed 4. -/
def uncompleteEntry (db : DB) (qid : Nat) : DB × ApiResult :=
  match db.findEntryByPk qid with
  | none => (db, .notFound "Queue entry not found")
  | some entry =>
    let standOpt := db.findStandByPk entry.standQueueId
    let db1 := db.setEntry { entry with status := .Active, completedAt := false }
    match standOpt with
    | none => (db1, .serverError)
    | some standQueue =>
      match standQueue.updateCounts (standQueue.currentParticipants + 1)
          (max 0 (standQueue.totalProcessed - 1)) with
      | none => (db1, .serverError)
      | some s2 => (db1.setStand s2, .success)

/-- POST /api/enterprise/queue/:enterpriseId/join
(enterprise.queue.routes.js lines 118-175).  Rejects when the caller has
any Active entry; find-or-creates the stand (Open, 0 participants);
rejects at 2 participants; otherwise creates an Active entry and then
increments the stand counter.  The stand status field is never written. -/
def enterpriseJoin (db : DB) (uid eid : Nat) : DB × ApiResult :=
  match db.entries.find? (fun e => decide (e.userId = uid) && decide (e.status = EntryStatus.Active)) with
  | some _ => (db, .clientError "You are already in an active queue")
  | none =>
    let found := db.findStandByEnterprise eid
    let standQueue := found.getD
      { id := db.nextId, enterpriseId := eid, status := .Open,
        currentParticipants := 0, totalProcessed := 0 }
    let db0 := match found with
      | some _ => db
      | none => { db with stands := db.stands ++ [standQueue], nextId := db.nextId + 1 }
    if 2 ≤ standQueue.currentParticipants then
      (db0, .clientError "Queue is full (maximum 2 concurrent participants)")
    else
      let queueEntry : QueueEntry :=
        { id := db0.nextId, userId := uid, standQueueId := standQueue.id,
          status := .Active, completedAt := false }
      let db1 := { db0 with entries := db0.entries ++ [queueEntry], nextId := db0.nextId + 1 }
      match standQueue.updateCounts (standQueue.currentParticipants + 1)
          standQueue.totalProcessed with
      | none => (db1, .serverError)
      | some s2 => (db1.setStand s2, .okEntry queueEntry)

/-- The findOne predicate of the leave handler: the entry belongs to the
caller, is Active, and its included StandQueue matches the enterprise id. -/
def leavePred (db : DB) (uid eid : Nat) (e : QueueEntry) : Bool :=
  decide (e.userId = uid) && decide (e.status = EntryStatus.Active) &&
    (match db.findStandByPk e.standQueueId with
     | some s => decide (s.enterpriseId = eid)
     | none => false)

/-- POST /api/enterprise/queue/:enterpriseId/leave
(enterprise.queue.routes.js lines 192-232).  Finds the caller entry that
is Active on the enterprise stand; marks it Left and decrements the
counter with a floor at 0.  The stand status field is never written. -/
def enterpriseLeave (db : DB) (uid eid : Nat) : DB × ApiResult :=
  match db.entries.find? (leavePred db uid eid) with
  | none => (db, .notFound "You are not in this queue")
  | some queueEntry =>
    let db1 := db.setEntry { queueEntry with status := .Left }
    match db.findStandByPk queueEntry.standQueueId with
    | none => (db1, .serverError)
    | some s =>
      match s.updateCounts (max 0 (s.currentParticipants - 1)) s.totalProcessed with
      | none => (db1, .serverError)
      | some s2 => (db1.setStand s2, .success)

/-- POST /api/queues/stand (queues.routes.js lines 35-61).  Creates or
updates a stand with operator-supplied status and participant count;
absent body fields keep the old value (update) or the defaults (create);
the participant count passes the schema validator or nothing changes. -/
def createOrUpdateStand (db : DB) (eid : Nat) (status : Option StandStatus)
    (cp : Option Int) : DB × ApiResult :=
  match db.findStandByEnterprise eid with
  | some s =>
    let newCp := cp.getD s.currentParticipants
    if validateCp newCp then
      let s2 := { s with status := status.getD s.status, currentParticipants := newCp }
      (db.setStand s2, .okStand s2)
    else (db, .serverError)
  | none =>
    let newCp := cp.getD 0
    if validateCp newCp then
      let s : StandQueue :=
        { id := db.nextId, enterpriseId := eid, status := status.getD .Open,
          currentParticipants := newCp, totalProcessed := 0 }
      ({ db with stands := db.stands ++ [s], nextId := db.nextId + 1 }, .okStand s)
    else (db, .serverError)

/-- The mutating operations of the queue subsystem. -/
inductive Op where
  | stand (eid : Nat) (status : Option StandStatus) (cp : Option Int)
  | join (uid eid : Nat)
  | complete (qid : Nat)
  | uncomplete (qid : Nat)
  | entJoin (uid eid : Nat)
  | entLeave (uid eid : Nat)

/-- Apply one operation, keeping the resulting database state. -/
def step (db : DB) : Op → DB
  | .stand eid st cp => (createOrUpdateStand db eid st cp).1
  | .join uid eid => (joinQueue db uid eid).1
  | .complete qid => (completeEntry db qid).1
  | .uncomplete qid => (uncompleteEntry db qid).1
  | .entJoin uid eid => (enterpriseJoin db uid eid).1
  | .entLeave uid eid => (enterpriseLeave db uid eid).1

/-- Run a sequence of operations from a state. -/
def run (db : DB) : List Op → DB
  | [] => db
  | op :: ops => run (step db op) ops

/-- `User.role` enum from `src/Back-end/src/models/user.js`. -/
inductive Role where
  | Admin
  | Organizer
  | Participant
  | Enterprise
deriving DecidableEq

/-- A `User` row, restricted to the fields the role claims read. -/
structure UserR where
  id : Nat
  username : String
  role : Role
deriving DecidableEq

/-- The user table. -/
structure AuthDB where
  users : List UserR
  nextId : Nat
deriving DecidableEq

def AuthDB.init : AuthDB := { users := [], nextId := 0 }

/-- `Auth.register` (src/Back-end/src/apis/auth.js): rejects a taken
username, otherwise creates the user with the role argument it is given. -/
def authRegister (adb : AuthDB) (username : String) (role : Role) :
    AuthDB × Option Nat :=
  match adb.users.find? (fun u => decide (u.username = username)) with
  | some _ => (adb, none)
  | none =>
    let u : UserR := { id := adb.nextId, username := username, role := role }
    ({ users := adb.users ++ [u], nextId := adb.nextId + 1 }, some u.id)

/-- POST /api/auth/register (src/unnamed/part_005 lines 49-58): the body
role is never read; the handler passes the constant Participant. -/
def registerHandler (adb : AuthDB) (username : String) (bodyRole : Option Role) :
    AuthDB × Option Nat :=
  let _ := bodyRole
  authRegister adb username .Participant

/-- `Auth.changeUserRole`: sets the role of an existing user. -/
def authChangeUserRole (adb : AuthDB) (userId : Nat) (newRole : Role) : AuthDB :=
  { adb with users := adb.users.map (fun u => if u.id = userId then { u with role := newRole } else u) }

/-- PUT /api/auth/change-role (src/unnamed/part_005 lines 216-233): the
caller must be Admin and the new role must be Admin or Organizer, else
nothing is written. -/
def changeRoleHandler (adb : AuthDB) (callerRole : Role) (userId : Nat)
    (newRole : Role) : AuthDB :=
  if callerRole ≠ .Admin then adb
  else if newRole ≠ .Admin ∧ newRole ≠ .Organizer then adb
  else authChangeUserRole adb userId newRole

/-- POST /api/enterprise/create (enterprise routes staged in
`src/Back-end/src/routes/contacts.routes.js` lines 937-995, mounted via
routes/index.js): Admin-only; calls `Auth.register(username, password,
'Enterprise')`, creating a user with the Enterprise role.  The CRM-sheet
write and the confirmation email are side effects outside the user
table. -/
def enterpriseCreateHandler (adb : AuthDB) (callerRole : Role)
    (username : String) : AuthDB × Option Nat :=
  if callerRole ≠ .Admin then (adb, none)
  else authRegister adb username .Enterprise

/-- Server startup (`server.js` startServer): if no Admin user exists,
`Auth.register` seeds the default admin account with role Admin. -/
def AuthDB.startServer (adb : AuthDB) : AuthDB :=
  match adb.users.find? (fun u => decide (u.role = Role.Admin)) with
  | some _ => adb
  | none => (authRegister adb "admin" .Admin).1

/-- The API operations that create users or write the role column:
register, Admin-only change-role, and the Admin-only enterprise-create
route; no other handler under src writes `User.role` or calls
`User.create` (the startup seeding is modelled by `AuthDB.startServer`). -/
inductive AuthOp where
  | register (username : String) (bodyRole : Option Role)
  | changeRole (callerId : Nat) (userId : Nat) (newRole : Role)
  | enterpriseCreate (callerId : Nat) (username : String)

def AuthOp.isEnterpriseCreate : AuthOp → Bool
  | .enterpriseCreate _ _ => true
  | _ => false

/-- Apply one auth operation; change-role and enterprise-create resolve
the caller role from the session user as `authMiddleware` does. -/
def authStep (adb : AuthDB) : AuthOp → AuthDB
  | .register username bodyRole => (registerHandler adb username bodyRole).1
  | .changeRole callerId userId newRole =>
    match adb.users.find? (fun u => decide (u.id = callerId)) with
    | none => adb
    | some caller => changeRoleHandler adb caller.role userId newRole
  | .enterpriseCreate callerId username =>
    match adb.users.find? (fun u => decide (u.id = callerId)) with
    | none => adb
    | some caller => (enterpriseCreateHandler adb caller.role username).1

def runAuth (adb : AuthDB) : List AuthOp → AuthDB
  | [] => adb
  | op :: ops => runAuth (authStep adb op) ops

/-- Number of Waiting/Active entries attached to a stand id. -/
def countWA (es : List QueueEntry) (sid : Nat) : Nat :=
  es.countP (fun e => decide (e.standQueueId = sid) && isWaitingOrActive e.status)

/-- Spec invariant 2: each stand counter equals its Waiting/Active entry
count. -/
def Consistent (db : DB) : Prop :=
  ∀ s ∈ db.stands, s.currentParticipants = (countWA db.entries s.id : Int)

/-- Spec invariant 1 at the schema bound: each stand counter lies in
[0, 4]. -/
def CpValid (db : DB) : Prop :=
  ∀ s ∈ db.stands, 0 ≤ s.currentParticipants ∧ s.currentParticipants ≤ 4

/-- Structural well-formedness of a database snapshot: distinct primary
keys and keys below the id counter. -/
def WF (db : DB) : Prop :=
  (db.entries.map (fun e => e.id)).Nodup ∧
  (db.stands.map (fun s => s.id)).Nodup ∧
  (∀ s ∈ db.stands, s.id < db.nextId) ∧
  (∀ e ∈ db.entries, e.id < db.nextId ∧ e.standQueueId < db.nextId)

/-- The operations, with preconditions, under which the occupancy count
invariant is preserved: the enterprise join and leave flows
unconditionally, completion only of a Waiting/Active entry, and
uncompletion only of a Completed entry on a stand below the schema bound.
The generic queues join and the operator stand write are excluded: they
change entries and counters independently. -/
def OpOk (db : DB) : Op → Prop
  | .entJoin _ _ => True
  | .entLeave _ _ => True
  | .complete qid =>
    ∀ e, db.findEntryByPk qid = some e → isWaitingOrActive e.status = true
  | .uncomplete qid =>
    ∀ e, db.findEntryByPk qid = some e →
      e.status = .Completed ∧
      ∀ s, db.findStandByPk e.standQueueId = some s → s.currentParticipants < 4
  | .join _ _ => False
  | .stand _ _ _ => False

/-- A map that fixes every element is the identity on the list. -/
theorem map_eq_self_of {α : Type} (f : α → α) :
    ∀ l : List α, (∀ x ∈ l, f x = x) → l.map f = l := by
  intro l h
  induction l with
  | nil => rfl
  | cons a t ih =>
    simp only [List.map_cons]
    rw [h a (List.mem_cons_self a t), ih (fun x hx => h x (List.mem_cons_of_mem a hx))]

/-- `find?` after a pointwise update that either fixes an element or
replaces it by the (still matching) updated record returns the updated
record. -/
theorem find?_map_update {α : Type} (p : α → Bool) (f : α → α) (a a' : α)
    (hfa : f a = a') (hpa : p a' = true) (hf : ∀ t, f t = t ∨ f t = a') :
    ∀ l : List α, l.find? p = some a → (l.map f).find? p = some a' := by
  intro l
  induction l with
  | nil => intro h; simp [List.find?] at h
  | cons b t ih =>
    intro h
    by_cases hb : p b = true
    · rw [List.find?_cons_of_pos _ hb] at h
      have hba : b = a := by exact Option.some.inj h
      subst hba
      simp only [List.map_cons, hfa]
      exact List.find?_cons_of_pos _ hpa
    · rw [List.find?_cons_of_neg _ hb] at h
      simp only [List.map_cons]
      rcases hf b with hfb | hfb
      · rw [hfb, List.find?_cons_of_neg _ hb]
        exact ih h
      · rw [hfb]
        exact List.find?_cons_of_pos _ hpa

/-- Effect of a keyed single-record update on `countP` when keys are
unique: only the updated record changes its contribution. -/
theorem countP_map_update {α : Type} (p : α → Bool) (k : α → Nat) (a a' : α)
    (hk : k a' = k a) :
    ∀ l : List α, a ∈ l → (l.map k).Nodup →
      (l.map (fun t => if k t = k a' then a' else t)).countP p
          + (if p a then 1 else 0)
        = l.countP p + (if p a' then 1 else 0) := by
  intro l
  induction l with
  | nil => intro h; simp at h
  | cons b t ih =>
    intro hmem hnd
    simp only [List.map_cons, List.nodup_cons] at hnd
    by_cases hb : k b = k a'
    · have hba : b = a := by
        rcases List.mem_cons.mp hmem with h | h
        · exact h.symm
        · exfalso
          exact hnd.1 (hb.trans hk ▸ List.mem_map_of_mem k h)
      subst hba
      have ht : t.map (fun t => if k t = k a' then a' else t) = t := by
        apply map_eq_self_of
        intro x hx
        have hxk : k x ≠ k a' := by
          intro hcontra
          exact hnd.1 (hb ▸ hcontra ▸ List.mem_map_of_mem k hx)
        simp [hxk]
      simp only [List.map_cons, if_pos hb, List.countP_cons, ht]
      omega
    · have hba : b ≠ a := fun hcontra => hb (hcontra ▸ hk.symm ▸ rfl)
      have hmt : a ∈ t := by
        rcases List.mem_cons.mp hmem with h | h
        · exact absurd h.symm hba
        · exact h
      have := ih hmt hnd.2
      simp only [List.map_cons, if_neg hb, List.countP_cons]
      omega

theorem countWA_append (es : List QueueEntry) (e : QueueEntry) (sid : Nat) :
    countWA (es ++ [e]) sid
      = countWA es sid
        + (if (decide (e.standQueueId = sid) && isWaitingOrActive e.status) = true
           then 1 else 0) := by
  simp [countWA, List.countP_append, List.countP_cons]

theorem findStandByEnterprise_facts {db : DB} {eid : Nat} {s : StandQueue}
    (h : db.findStandByEnterprise eid = some s) :
    s ∈ db.stands ∧ s.enterpriseId = eid := by
  unfold DB.findStandByEnterprise at h
  have hp := List.find?_some h
  simp only [decide_eq_true_eq] at hp
  exact ⟨List.mem_of_find?_eq_some h, hp⟩

theorem findStandByPk_facts {db : DB} {sid : Nat} {s : StandQueue}
    (h : db.findStandByPk sid = some s) :
    s ∈ db.stands ∧ s.id = sid := by
  unfold DB.findStandByPk at h
  have hp := List.find?_some h
  simp only [decide_eq_true_eq] at hp
  exact ⟨List.mem_of_find?_eq_some h, hp⟩

theorem findEntryByPk_facts {db : DB} {qid : Nat} {e : QueueEntry}
    (h : db.findEntryByPk qid = some e) :
    e ∈ db.entries ∧ e.id = qid := by
  unfold DB.findEntryByPk at h
  have hp := List.find?_some h
  simp only [decide_eq_true_eq] at hp
  exact ⟨List.mem_of_find?_eq_some h, hp⟩

theorem updateCounts_eq_some {s s2 : StandQueue} {cp tp : Int}
    (h : s.updateCounts cp tp = some s2) :
    s2 = { s with currentParticipants := cp, totalProcessed := tp }
      ∧ 0 ≤ cp ∧ cp ≤ 4 := by
  unfold StandQueue.updateCounts at h
  by_cases hv : validateCp cp = true
  · rw [if_pos hv] at h
    exact ⟨(Option.some.inj h).symm, of_decide_eq_true hv⟩
  · rw [if_neg hv] at h
    exact absurd h (by simp)

theorem updateCounts_some_of (s : StandQueue) (cp tp : Int)
    (h0 : 0 ≤ cp) (h4 : cp ≤ 4) :
    s.updateCounts cp tp
      = some { s with currentParticipants := cp, totalProcessed := tp } := by
  have hv : validateCp cp = true := decide_eq_true ⟨h0, h4⟩
  unfold StandQueue.updateCounts
  rw [if_pos hv]

/-- The occupancy count at one stand id after replacing one entry record,
keys being unique: the counted contribution moves from the old to the new
record. -/
theorem countWA_setEntry (es : List QueueEntry) (e e' : QueueEntry) (sid : Nat)
    (hnd : (es.map (fun x => x.id)).Nodup) (he : e ∈ es) (hid : e'.id = e.id) :
    countWA (es.map (fun t => if t.id = e'.id then e' else t)) sid
        + (if (decide (e.standQueueId = sid) && isWaitingOrActive e.status) = true
           then 1 else 0)
      = countWA es sid
        + (if (decide (e'.standQueueId = sid) && isWaitingOrActive e'.status) = true
           then 1 else 0) := by
  simpa [countWA] using
    countP_map_update
      (fun x => decide (x.standQueueId = sid) && isWaitingOrActive x.status)
      (fun x => x.id) e e' hid es he hnd

/-- Updating one entry whose stand id matches no stand leaves the count
invariant intact. -/
theorem Consistent_setEntry_nostand (db : DB) (e e' : QueueEntry)
    (hnd : (db.entries.map (fun x => x.id)).Nodup)
    (hcons : Consistent db) (he : e ∈ db.entries)
    (hid : e'.id = e.id) (hsq : e'.standQueueId = e.standQueueId)
    (hnos : ∀ t ∈ db.stands, t.id ≠ e.standQueueId) :
    Consistent (db.setEntry e') := by
  intro x hx
  have hx' : x ∈ db.stands := hx
  have hne : x.id ≠ e.standQueueId := hnos x hx'
  have hcount := countWA_setEntry db.entries e e' x.id hnd he hid
  rw [if_neg (by simp [hne.symm]), if_neg (by simp [hsq, hne.symm])] at hcount
  rw [hcons x hx']
  simp only [DB.setEntry]
  omega

/-- Updating one entry together with the stand it points at preserves the
count invariant, provided the new stand counter equals the new count at
its id. -/
theorem Consistent_setEntry_setStand (db : DB) (e e' : QueueEntry)
    (s2 : StandQueue)
    (hnd : (db.entries.map (fun x => x.id)).Nodup)
    (hcons : Consistent db) (he : e ∈ db.entries)
    (hid : e'.id = e.id) (hsq : e'.standQueueId = e.standQueueId)
    (hsid : s2.id = e.standQueueId)
    (hcp : s2.currentParticipants
      = (countWA (db.entries.map (fun t => if t.id = e'.id then e' else t))
          s2.id : Int)) :
    Consistent ((db.setEntry e').setStand s2) := by
  intro x hx
  simp only [DB.setStand, DB.setEntry] at hx ⊢
  rcases List.mem_map.mp hx with ⟨t, ht, hxt⟩
  by_cases hk : t.id = s2.id
  · rw [if_pos hk] at hxt
    rw [← hxt]
    exact hcp
  · rw [if_neg hk] at hxt
    rw [← hxt]
    have hne : t.id ≠ e.standQueueId := fun hcontra => hk (hsid ▸ hcontra)
    have hcount := countWA_setEntry db.entries e e' t.id hnd he hid
    rw [if_neg (by simp [hne.symm]), if_neg (by simp [hsq, hne.symm])] at hcount
    rw [hcons t ht]
    omega

/-- Appending one Waiting/Active entry and raising the counter of the
stand it points at preserves the count invariant. -/
theorem Consistent_append_setStand (db db1 : DB) (qe : QueueEntry)
    (s2 : StandQueue)
    (hstands : db1.stands = db.stands)
    (hentries : db1.entries = db.entries ++ [qe])
    (hcons : Consistent db)
    (hsid : s2.id = qe.standQueueId)
    (hwa : isWaitingOrActive qe.status = true)
    (hcp : s2.currentParticipants = (countWA db.entries s2.id : Int) + 1) :
    Consistent (db1.setStand s2) := by
  intro x hx
  simp only [DB.setStand, hstands, hentries] at hx ⊢
  rcases List.mem_map.mp hx with ⟨t, ht, hxt⟩
  rw [countWA_append]
  by_cases hk : t.id = s2.id
  · rw [if_pos hk] at hxt
    rw [← hxt, if_pos (by simp [hsid, hwa])]
    push_cast
    omega
  · rw [if_neg hk] at hxt
    have hne : ¬(decide (qe.standQueueId = t.id) && isWaitingOrActive qe.status) = true := by
      simp only [Bool.and_eq_true, decide_eq_true_eq, not_and]
      intro hcontra
      exact absurd ((hsid.trans hcontra).symm) hk
    rw [← hxt, if_neg hne]
    simpa using hcons t ht

theorem countWA_pos_of_mem {es : List QueueEntry} {e : QueueEntry} {sid : Nat}
    (he : e ∈ es) (hsq : e.standQueueId = sid)
    (hwa : isWaitingOrActive e.status = true) : 1 ≤ countWA es sid := by
  unfold countWA
  exact List.countP_pos_iff.mpr ⟨e, he, by simp [hsq, hwa]⟩

theorem countWA_eq_zero_of_fresh (db : DB) (sid : Nat)
    (hefresh : ∀ e ∈ db.entries, e.id < db.nextId ∧ e.standQueueId < db.nextId)
    (hsid : db.nextId ≤ sid) : countWA db.entries sid = 0 := by
  unfold countWA
  apply List.countP_eq_zero.mpr
  intro e he
  have hlt := (hefresh e he).2
  simp only [Bool.and_eq_true, decide_eq_true_eq, not_and]
  intro hcontra
  exfalso
  omega

/-- The single-step portion of the occupancy invariant claimed by the
spec, under the preconditions the code actually maintains (`OpOk`). -/
theorem consistent_step (db : DB) (op : Op)
    (hwf : WF db) (hcpv : CpValid db) (hcons : Consistent db)
    (hop : OpOk db op) : Consistent (step db op) := by
  obtain ⟨hnd, hsnd, hsfresh, hefresh⟩ := hwf
  cases op with
  | stand eid st cp => exact hop.elim
  | join uid eid => exact hop.elim
  | entJoin uid eid =>
    simp only [step, enterpriseJoin]
    cases hfa : db.entries.find?
        (fun e => decide (e.userId = uid) && decide (e.status = EntryStatus.Active)) with
    | some e0 => exact hcons
    | none =>
      cases hfound : db.findStandByEnterprise eid with
      | some s =>
        obtain ⟨hsmem, _⟩ := findStandByEnterprise_facts hfound
        have hcnt := hcons s hsmem
        have h0 : 0 ≤ s.currentParticipants := by
          rw [hcnt]; exact Int.natCast_nonneg _
        simp only [Option.getD_some]
        by_cases h2 : 2 ≤ s.currentParticipants
        · rw [if_pos h2]
          exact hcons
        · rw [if_neg h2]
          rw [updateCounts_some_of s (s.currentParticipants + 1) s.totalProcessed
            (by omega) (by omega)]
          dsimp only
          apply Consistent_append_setStand db _ _ _ (by rfl) (by rfl) hcons
            (by rfl) (by rfl)
          dsimp only
          rw [hcnt]
      | none =>
        simp only [Option.getD_none]
        rw [if_neg (show ¬(2:Int) ≤ 0 by omega)]
        rw [updateCounts_some_of _ (0 + 1) 0 (by omega) (by omega)]
        intro x hx
        simp only [DB.setStand] at hx ⊢
        rcases List.mem_map.mp hx with ⟨t, ht, hxt⟩
        rcases List.mem_append.mp ht with htl | htr
        · have htid : t.id < db.nextId := hsfresh t htl
          rw [if_neg (by omega)] at hxt
          rw [← hxt, countWA_append,
            if_neg (by
              simp only [Bool.and_eq_true, decide_eq_true_eq, not_and]
              intro hcontra
              omega)]
          simpa using hcons t htl
        · have htn := List.mem_singleton.mp htr
          subst htn
          rw [if_pos rfl] at hxt
          rw [← hxt, countWA_append, if_pos (by simp [isWaitingOrActive])]
          rw [countWA_eq_zero_of_fresh db _ hefresh (by simp)]
          simp
  | entLeave uid eid =>
    simp only [step, enterpriseLeave]
    cases hfe : db.entries.find? (leavePred db uid eid) with
    | none => exact hcons
    | some e =>
      have hmem : e ∈ db.entries := List.mem_of_find?_eq_some hfe
      have hpred := List.find?_some hfe
      unfold leavePred at hpred
      rw [Bool.and_eq_true, Bool.and_eq_true] at hpred
      obtain ⟨⟨huid, hact⟩, hstand⟩ := hpred
      rw [decide_eq_true_eq] at hact
      cases hfs : db.findStandByPk e.standQueueId with
      | none => rw [hfs] at hstand; exact absurd hstand (by simp)
      | some s =>
        obtain ⟨hsmem, hsid⟩ := findStandByPk_facts hfs
        have hcnt := hcons s hsmem
        have hge1 : 1 ≤ countWA db.entries s.id :=
          countWA_pos_of_mem hmem hsid.symm (by rw [hact]; rfl)
        have h1 : 1 ≤ s.currentParticipants := by
          rw [hcnt]; exact_mod_cast hge1
        have h4 := (hcpv s hsmem).2
        simp only [hfs, updateCounts_some_of s (max 0 (s.currentParticipants - 1))
          s.totalProcessed (by omega) (by omega)]
        apply Consistent_setEntry_setStand db e _ _ hnd hcons hmem (by rfl) (by rfl)
          (by exact hsid)
        have hkey := countWA_setEntry db.entries e
          { e with status := .Left } s.id hnd hmem rfl
        rw [if_pos (by simp [hsid.symm, hact, isWaitingOrActive]),
          if_neg (by simp [isWaitingOrActive])] at hkey
        dsimp only at hkey ⊢
        omega
  | complete qid =>
    simp only [step, completeEntry]
    cases hfe : db.findEntryByPk qid with
    | none => exact hcons
    | some e =>
      have hwa : isWaitingOrActive e.status = true := hop e hfe
      have hmem := (findEntryByPk_facts hfe).1
      cases hfs : db.findStandByPk e.standQueueId with
      | none =>
        have hnos : ∀ t ∈ db.stands, t.id ≠ e.standQueueId := by
          intro t ht hcontra
          unfold DB.findStandByPk at hfs
          exact absurd (decide_eq_true hcontra) (List.find?_eq_none.mp hfs t ht)
        simp only [hfs]
        exact Consistent_setEntry_nostand db e _ hnd hcons hmem rfl rfl hnos
      | some s =>
        obtain ⟨hsmem, hsid⟩ := findStandByPk_facts hfs
        have hcnt := hcons s hsmem
        have hge1 : 1 ≤ countWA db.entries s.id :=
          countWA_pos_of_mem hmem hsid.symm hwa
        have h1 : 1 ≤ s.currentParticipants := by
          rw [hcnt]; exact_mod_cast hge1
        have h4 := (hcpv s hsmem).2
        simp only [hfs, updateCounts_some_of s (max 0 (s.currentParticipants - 1))
          (s.totalProcessed + 1) (by omega) (by omega)]
        apply Consistent_setEntry_setStand db e _ _ hnd hcons hmem (by rfl) (by rfl)
          (by exact hsid)
        have hkey := countWA_setEntry db.entries e
          { e with status := .Completed, completedAt := true } s.id hnd hmem rfl
        rw [if_pos (by simp [hsid.symm, hwa]),
          if_neg (by simp [isWaitingOrActive])] at hkey
        dsimp only at hkey ⊢
        omega
  | uncomplete qid =>
    simp only [step, uncompleteEntry]
    cases hfe : db.findEntryByPk qid with
    | none => exact hcons
    | some e =>
      obtain ⟨hcompl, hcap⟩ := hop e hfe
      have hmem := (findEntryByPk_facts hfe).1
      cases hfs : db.findStandByPk e.standQueueId with
      | none =>
        have hnos : ∀ t ∈ db.stands, t.id ≠ e.standQueueId := by
          intro t ht hcontra
          unfold DB.findStandByPk at hfs
          exact absurd (decide_eq_true hcontra) (List.find?_eq_none.mp hfs t ht)
        simp only [hfs]
        exact Consistent_setEntry_nostand db e _ hnd hcons hmem rfl rfl hnos
      | some s =>
        obtain ⟨hsmem, hsid⟩ := findStandByPk_facts hfs
        have hcnt := hcons s hsmem
        have h0 : 0 ≤ s.currentParticipants := by
          rw [hcnt]; exact Int.natCast_nonneg _
        have h4 : s.currentParticipants < 4 := hcap s hfs
        simp only [hfs, updateCounts_some_of s (s.currentParticipants + 1)
          (max 0 (s.totalProcessed - 1)) (by omega) (by omega)]
        apply Consistent_setEntry_setStand db e _ _ hnd hcons hmem (by rfl) (by rfl)
          (by exact hsid)
        have hkey := countWA_setEntry db.entries e
          { e with status := .Active, completedAt := false } s.id hnd hmem rfl
        rw [if_neg (by simp [hcompl, isWaitingOrActive]),
          if_pos (by simp [hsid.symm, isWaitingOrActive])] at hkey
        dsimp only at hkey ⊢
        omega

theorem CpValid_congr {db db1 : DB} (h : db1.stands = db.stands)
    (hcp : CpValid db) : CpValid db1 := by
  intro x hx
  rw [h] at hx
  exact hcp x hx

theorem CpValid_setStand (db db1 : DB) (s2 : StandQueue)
    (hst : db1.stands = db.stands) (hcp : CpValid db)
    (h0 : 0 ≤ s2.currentParticipants) (h4 : s2.currentParticipants ≤ 4) :
    CpValid (db1.setStand s2) := by
  intro x hx
  simp only [DB.setStand, hst] at hx
  rcases List.mem_map.mp hx with ⟨t, ht, hxt⟩
  by_cases hk : t.id = s2.id
  · rw [if_pos hk] at hxt
    rw [← hxt]
    exact ⟨h0, h4⟩
  · rw [if_neg hk] at hxt
    rw [← hxt]
    exact hcp t ht

theorem CpValid_append (db : DB) (s : StandQueue) (es : List QueueEntry)
    (n : Nat) (hcp : CpValid db)
    (h0 : 0 ≤ s.currentParticipants) (h4 : s.currentParticipants ≤ 4) :
    CpValid { stands := db.stands ++ [s], entries := es, nextId := n } := by
  intro x hx
  rcases List.mem_append.mp hx with h | h
  · exact hcp x h
  · rw [List.mem_singleton.mp h]
    exact ⟨h0, h4⟩

/-- Every operation keeps `currentParticipants` within the schema bounds:
every write to a stand row goes through the attribute validator (or
creates a row with counter 0). -/
theorem cpValid_step (db : DB) (op : Op) (hcp : CpValid db) :
    CpValid (step db op) := by
  cases op with
  | stand eid st c =>
    simp only [step, createOrUpdateStand]
    cases hf : db.findStandByEnterprise eid with
    | some s =>
      dsimp only
      by_cases hv : validateCp (c.getD s.currentParticipants) = true
      · rw [if_pos hv]
        have hb : 0 ≤ c.getD s.currentParticipants
            ∧ c.getD s.currentParticipants ≤ 4 := by
          unfold validateCp at hv
          exact of_decide_eq_true hv
        exact CpValid_setStand db db _ rfl hcp hb.1 hb.2
      · rw [if_neg hv]
        exact hcp
    | none =>
      dsimp only
      by_cases hv : validateCp (c.getD 0) = true
      · rw [if_pos hv]
        have hb : 0 ≤ c.getD 0 ∧ c.getD 0 ≤ 4 := by
          unfold validateCp at hv
          exact of_decide_eq_true hv
        exact CpValid_append db _ _ _ hcp hb.1 hb.2
      · rw [if_neg hv]
        exact hcp
  | join uid eid =>
    simp only [step, joinQueue]
    by_cases h2 : 2 ≤ db.countActiveEntries uid
    · rw [if_pos h2]
      exact hcp
    · rw [if_neg h2]
      cases hf : db.findStandByEnterprise eid with
      | none => exact hcp
      | some s =>
        dsimp only
        by_cases hc : s.status = StandStatus.Closed
        · rw [if_pos hc]
          exact hcp
        · rw [if_neg hc]
          by_cases hfull : s.status = StandStatus.Full
              ∧ 4 ≤ s.currentParticipants
          · rw [if_pos hfull]
            exact hcp
          · rw [if_neg hfull]
            exact CpValid_congr rfl hcp
  | complete qid =>
    simp only [step, completeEntry]
    cases hfe : db.findEntryByPk qid with
    | none => exact hcp
    | some e =>
      cases hfs : db.findStandByPk e.standQueueId with
      | none =>
        simp only [hfs]
        exact CpValid_congr rfl hcp
      | some s =>
        simp only [hfs]
        cases hup : s.updateCounts (max 0 (s.currentParticipants - 1))
            (s.totalProcessed + 1) with
        | none => exact CpValid_congr rfl hcp
        | some s2 =>
          obtain ⟨hs2, h0, h4⟩ := updateCounts_eq_some hup
          exact CpValid_setStand db _ s2 rfl hcp
            (by rw [hs2]; exact h0) (by rw [hs2]; exact h4)
  | uncomplete qid =>
    simp only [step, uncompleteEntry]
    cases hfe : db.findEntryByPk qid with
    | none => exact hcp
    | some e =>
      cases hfs : db.findStandByPk e.standQueueId with
      | none =>
        simp only [hfs]
        exact CpValid_congr rfl hcp
      | some s =>
        simp only [hfs]
        cases hup : s.updateCounts (s.currentParticipants + 1)
            (max 0 (s.totalProcessed - 1)) with
        | none => exact CpValid_congr rfl hcp
        | some s2 =>
          obtain ⟨hs2, h0, h4⟩ := updateCounts_eq_some hup
          exact CpValid_setStand db _ s2 rfl hcp
            (by rw [hs2]; exact h0) (by rw [hs2]; exact h4)
  | entJoin uid eid =>
    simp only [step, enterpriseJoin]
    cases hfa : db.entries.find?
        (fun e => decide (e.userId = uid) && decide (e.status = EntryStatus.Active)) with
    | some e0 => exact hcp
    | none =>
      cases hfound : db.findStandByEnterprise eid with
      | some s =>
        simp only [Option.getD_some]
        by_cases h2 : 2 ≤ s.currentParticipants
        · rw [if_pos h2]
          exact hcp
        · rw [if_neg h2]
          cases hup : s.updateCounts (s.currentParticipants + 1)
              s.totalProcessed with
          | none => exact CpValid_congr rfl hcp
          | some s2 =>
            obtain ⟨hs2, h0, h4⟩ := updateCounts_eq_some hup
            exact CpValid_setStand db _ s2 rfl hcp
              (by rw [hs2]; exact h0) (by rw [hs2]; exact h4)
      | none =>
        simp only [Option.getD_none]
        rw [if_neg (show ¬(2:Int) ≤ 0 by omega)]
        have hcp0 := CpValid_append db
          { id := db.nextId, enterpriseId := eid, status := .Open,
            currentParticipants := 0, totalProcessed := 0 }
          db.entries (db.nextId + 1) hcp (by exact le_refl 0) (by norm_num)
        cases hup : StandQueue.updateCounts
            { id := db.nextId, enterpriseId := eid, status := .Open,
              currentParticipants := 0, totalProcessed := 0 }
            (0 + 1) 0 with
        | none => exact CpValid_congr rfl hcp0
        | some s2 =>
          obtain ⟨hs2, h0, h4⟩ := updateCounts_eq_some hup
          exact CpValid_setStand _ _ s2 rfl hcp0
            (by rw [hs2]; exact h0) (by rw [hs2]; exact h4)
  | entLeave uid eid =>
    simp only [step, enterpriseLeave]
    cases hfe : db.entries.find? (leavePred db uid eid) with
    | none => exact hcp
    | some e =>
      cases hfs : db.findStandByPk e.standQueueId with
      | none =>
        simp only [hfs]
        exact CpValid_congr rfl hcp
      | some s =>
        simp only [hfs]
        cases hup : s.updateCounts (max 0 (s.currentParticipants - 1))
            s.totalProcessed with
        | none => exact CpValid_congr rfl hcp
        | some s2 =>
          obtain ⟨hs2, h0, h4⟩ := updateCounts_eq_some hup
          exact CpValid_setStand db _ s2 rfl hcp
            (by rw [hs2]; exact h0) (by rw [hs2]; exact h4)

theorem cpValid_run (db : DB) (hcp : CpValid db) (ops : List Op) :
    CpValid (run db ops) := by
  induction ops generalizing db with
  | nil => exact hcp
  | cons op ops ih => exact ih (step db op) (cpValid_step db op hcp)

/-- No user row carries the Enterprise role. -/
def NoEnterprise (adb : AuthDB) : Prop :=
  ∀ u ∈ adb.users, u.role ≠ Role.Enterprise

theorem noEnterprise_step (adb : AuthDB) (op : AuthOp)
    (hop : op.isEnterpriseCreate = false) (h : NoEnterprise adb) :
    NoEnterprise (authStep adb op) := by
  cases op with
  | enterpriseCreate callerId username =>
    exact absurd hop (by simp [AuthOp.isEnterpriseCreate])
  | register username bodyRole =>
    simp only [authStep, registerHandler, authRegister]
    cases hf : adb.users.find? (fun u => decide (u.username = username)) with
    | some u => exact h
    | none =>
      intro u hu
      rcases List.mem_append.mp hu with h1 | h1
      · exact h u h1
      · rw [List.mem_singleton.mp h1]
        simp
  | changeRole callerId userId newRole =>
    simp only [authStep]
    cases hf : adb.users.find? (fun u => decide (u.id = callerId)) with
    | none => exact h
    | some caller =>
      simp only [changeRoleHandler]
      by_cases hA : caller.role ≠ Role.Admin
      · rw [if_pos hA]
        exact h
      · rw [if_neg hA]
        by_cases hR : newRole ≠ Role.Admin ∧ newRole ≠ Role.Organizer
        · rw [if_pos hR]
          exact h
        · rw [if_neg hR]
          simp only [authChangeUserRole]
          intro u hu
          rcases List.mem_map.mp hu with ⟨t, ht, hxt⟩
          by_cases hk : t.id = userId
          · rw [if_pos hk] at hxt
            rw [← hxt]
            rcases not_and_or.mp hR with h' | h' <;>
              · rw [not_not] at h'
                simp [h']
          · rw [if_neg hk] at hxt
            rw [← hxt]
            exact h t ht

theorem noEnterprise_run (adb : AuthDB) (h : NoEnterprise adb)
    (ops : List AuthOp) (hops : ∀ op ∈ ops, op.isEnterpriseCreate = false) :
    NoEnterprise (runAuth adb ops) := by
  induction ops generalizing adb with
  | nil => exact h
  | cons op ops ih =>
    exact ih (authStep adb op)
      (noEnterprise_step adb op (hops op (List.mem_cons_self op ops)) h)
      (fun op2 h2 => hops op2 (List.mem_cons_of_mem op h2))

theorem find?_eq_none_of {α : Type} (p : α → Bool) (l : List α)
    (h : ∀ x ∈ l, p x = false) : l.find? p = none :=
  List.find?_eq_none.mpr (fun x hx => by simp [h x hx])

theorem find?_append_left_none {α : Type} (p : α → Bool) (l1 l2 : List α)
    (h : l1.find? p = none) : (l1 ++ l2).find? p = l2.find? p := by
  induction l1 with
  | nil => rfl
  | cons b t ih =>
    by_cases hb : p b = true
    · rw [List.find?_cons_of_pos _ hb] at h
      exact absurd h (by simp)
    · rw [List.find?_cons_of_neg _ hb] at h
      rw [List.cons_append, List.find?_cons_of_neg _ hb]
      exact ih h

theorem updateCounts_none_of (s : StandQueue) (cp tp : Int) (h : 4 < cp) :
    s.updateCounts cp tp = none := by
  unfold StandQueue.updateCounts
  rw [if_neg]
  simp only [validateCp, decide_eq_true_eq, not_and]
  intro _
  omega

/-- C1 (amended): the occupancy-equals-count invariant is preserved by the
enterprise join and leave operations, by completing a Waiting or Active
entry, and by uncompleting a Completed entry on a stand strictly below the
schema bound; the generic queues join (which never increments the counter)
and the operator stand write are excluded. -/
theorem occupancy_count_invariant_preserved (db : DB) (op : Op)
    (hwf : WF db) (hcpv : CpValid db) (hcons : Consistent db)
    (hop : OpOk db op) : Consistent (step db op) :=
  consistent_step db op hwf hcpv hcons hop

theorem occupancy_count_invariant_preserved_witness :
    Consistent (step (run DB.init [Op.entJoin 1 1]) (Op.entLeave 1 1)) :=
  occupancy_count_invariant_preserved (run DB.init [Op.entJoin 1 1])
    (Op.entLeave 1 1)
    (by unfold WF; decide) (by unfold CpValid; decide)
    (by unfold Consistent; decide) trivial

/-- C1 counterexample: the invariant holds after creating the stand but is
broken by the generic queues join, which creates a Waiting entry without
incrementing currentParticipants. -/
theorem plain_join_breaks_occupancy_count :
    Consistent (run DB.init [Op.stand 7 (some StandStatus.Open) (some 0)])
      ∧ ¬ Consistent (run DB.init
          [Op.stand 7 (some StandStatus.Open) (some 0), Op.join 3 7]) := by
  constructor
  · unfold Consistent
    decide
  · unfold Consistent
    decide

/-- C2 (amended): in every reachable state every stand counter lies within
the schema validation bounds 0 and 4; the enterprise join/leave capacity
of 2 is not a reachable-state bound. -/
theorem currentParticipants_schema_bounded (ops : List Op) :
    CpValid (run DB.init ops) :=
  cpValid_run DB.init (fun s hs => absurd hs (List.not_mem_nil s)) ops

theorem currentParticipants_schema_bounded_witness :
    0 ≤ ({ id := 0, enterpriseId := 1, status := StandStatus.Open, currentParticipants := 1, totalProcessed := 0 } : StandQueue).currentParticipants
      ∧ ({ id := 0, enterpriseId := 1, status := StandStatus.Open, currentParticipants := 1, totalProcessed := 0 } : StandQueue).currentParticipants ≤ 4 :=
  currentParticipants_schema_bounded [Op.entJoin 1 1]
    { id := 0, enterpriseId := 1, status := StandStatus.Open,
      currentParticipants := 1, totalProcessed := 0 } (by decide)

/-- C2 counterexample: uncomplete raises a stand to 3 participants even
though its joins are rejected as full at 2, so occupancy is not bounded by
the enterprise-flow capacity. -/
theorem uncomplete_exceeds_enterprise_capacity :
    (run DB.init [Op.entJoin 1 1, Op.entJoin 2 1, Op.complete 1, Op.complete 2,
        Op.entJoin 1 1, Op.entJoin 2 1, Op.uncomplete 1]).findStandByEnterprise 1
      = some { id := 0, enterpriseId := 1, status := StandStatus.Open, currentParticipants := 3, totalProcessed := 1 }
      ∧ (enterpriseJoin (run DB.init [Op.entJoin 1 1, Op.entJoin 2 1,
          Op.complete 1, Op.complete 2, Op.entJoin 1 1, Op.entJoin 2 1,
          Op.uncomplete 1]) 5 1).2
        = ApiResult.clientError "Queue is full (maximum 2 concurrent participants)"
      ∧ (2 : Int) < 3 := by
  decide

/-- C10 (amended): the register route hard-codes the Participant role,
ignoring any client-supplied role, and change-role only writes Admin or
Organizer; so as long as the Admin-only POST /api/enterprise/create route
is never invoked, no reachable user (from the seeded startup state) has
role Enterprise.  That route, however, calls Auth.register with the
literal role Enterprise, so an Admin API call does create an Enterprise
user (see the counterexample). -/
theorem no_enterprise_user_without_enterprise_create
    (adb : AuthDB) (username : String) (r r2 : Option Role)
    (ops : List AuthOp)
    (hops : ∀ op ∈ ops, op.isEnterpriseCreate = false) :
    registerHandler adb username r = registerHandler adb username r2
      ∧ ∀ u ∈ (runAuth (AuthDB.startServer AuthDB.init) ops).users,
          u.role ≠ Role.Enterprise :=
  ⟨rfl, noEnterprise_run (AuthDB.startServer AuthDB.init)
    (by unfold NoEnterprise; decide) ops hops⟩

theorem no_enterprise_user_without_enterprise_create_witness :
    registerHandler AuthDB.init "alice" none
        = registerHandler AuthDB.init "alice" (some Role.Enterprise)
      ∧ ({ id := 1, username := "bob", role := Role.Participant } : UserR).role
        ≠ Role.Enterprise :=
  ⟨(no_enterprise_user_without_enterprise_create AuthDB.init "alice" none
      (some Role.Enterprise) [] (by decide)).1,
   (no_enterprise_user_without_enterprise_create AuthDB.init "alice" none
      (some Role.Enterprise) [AuthOp.register "bob" (some Role.Enterprise)]
      (by decide)).2
     { id := 1, username := "bob", role := Role.Participant } (by decide)⟩

/-- C10 counterexample: from the seeded startup state (default admin,
id 0), one call to POST /api/enterprise/create by the admin creates a
user whose role is Enterprise, refuting that no sequence of API calls
ever produces one. -/
theorem enterprise_create_yields_enterprise_user :
    ({ id := 1, username := "acme", role := Role.Enterprise } : UserR)
      ∈ (runAuth (AuthDB.startServer AuthDB.init)
          [AuthOp.enterpriseCreate 0 "acme"]).users := by
  decide

/-- C3 (amended): complete performs no status check: whenever the entry and
its stand exist (stand within schema bounds), the handler succeeds —
whatever the entry status, including Completed — marking the entry
Completed, flooring the decrement at 0 and incrementing totalProcessed.
NotFound is returned only for an absent entry. -/
theorem complete_no_invalid_state_guard (db : DB) (qid : Nat) (e : QueueEntry)
    (s : StandQueue) (he : db.findEntryByPk qid = some e)
    (hs : db.findStandByPk e.standQueueId = some s)
    (h4 : s.currentParticipants ≤ 4) :
    completeEntry db qid
      = ((db.setEntry { e with status := EntryStatus.Completed, completedAt := true }).setStand
           { s with currentParticipants := max 0 (s.currentParticipants - 1), totalProcessed := s.totalProcessed + 1 },
         ApiResult.success) := by
  simp only [completeEntry, he, hs,
    updateCounts_some_of s (max 0 (s.currentParticipants - 1))
      (s.totalProcessed + 1) (by omega) (by omega)]

theorem complete_no_invalid_state_guard_witness :
    completeEntry (run DB.init [Op.entJoin 1 1]) 1
      = (((run DB.init [Op.entJoin 1 1]).setEntry { id := 1, userId := 1, standQueueId := 0, status := EntryStatus.Completed, completedAt := true }).setStand
           { id := 0, enterpriseId := 1, status := StandStatus.Open, currentParticipants := max 0 (1 - 1), totalProcessed := 0 + 1 },
         ApiResult.success) :=
  complete_no_invalid_state_guard (run DB.init [Op.entJoin 1 1]) 1
    { id := 1, userId := 1, standQueueId := 0, status := EntryStatus.Active, completedAt := false }
    { id := 0, enterpriseId := 1, status := StandStatus.Open, currentParticipants := 1, totalProcessed := 0 }
    (by decide) (by decide) (by decide)

/-- C3 counterexample: a second complete of the same (already Completed)
entry is not rejected: it succeeds again and mutates totalProcessed a
second time. -/
theorem double_complete_mutates_again :
    (completeEntry (run DB.init [Op.entJoin 1 1]) 1).1.findEntryByPk 1
        = some { id := 1, userId := 1, standQueueId := 0, status := EntryStatus.Completed, completedAt := true }
      ∧ (completeEntry (completeEntry (run DB.init [Op.entJoin 1 1]) 1).1 1).2
        = ApiResult.success
      ∧ (completeEntry (completeEntry (run DB.init [Op.entJoin 1 1]) 1).1 1).1.findStandByPk 0
        = some { id := 0, enterpriseId := 1, status := StandStatus.Open, currentParticipants := 0, totalProcessed := 2 } := by
  decide

/-- C4 (amended): uncomplete performs no status check: any found entry —
whatever its status — is set to Active with completedAt cleared; the
stand update increments the counter and floors totalProcessed at 0, and
when the increment would pass the schema bound 4 the stand update fails
with a 500 while the entry update has already been applied.  There is no
capacity check in the handler itself. -/
theorem uncomplete_no_invalid_state_guard (db : DB) (qid : Nat)
    (e : QueueEntry) (s : StandQueue)
    (he : db.findEntryByPk qid = some e)
    (hs : db.findStandByPk e.standQueueId = some s)
    (h0 : 0 ≤ s.currentParticipants) :
    uncompleteEntry db qid
      = if s.currentParticipants + 1 ≤ 4 then
          ((db.setEntry { e with status := EntryStatus.Active, completedAt := false }).setStand
             { s with currentParticipants := s.currentParticipants + 1, totalProcessed := max 0 (s.totalProcessed - 1) },
           ApiResult.success)
        else
          (db.setEntry { e with status := EntryStatus.Active, completedAt := false },
           ApiResult.serverError) := by
  by_cases hle : s.currentParticipants + 1 ≤ 4
  · rw [if_pos hle]
    simp only [uncompleteEntry, he, hs,
      updateCounts_some_of s (s.currentParticipants + 1)
        (max 0 (s.totalProcessed - 1)) (by omega) hle]
  · rw [if_neg hle]
    simp only [uncompleteEntry, he, hs,
      updateCounts_none_of s (s.currentParticipants + 1)
        (max 0 (s.totalProcessed - 1)) (by omega)]

theorem uncomplete_no_invalid_state_guard_witness :
    uncompleteEntry (run DB.init [Op.entJoin 1 1]) 1
      = if (1 : Int) + 1 ≤ 4 then
          (((run DB.init [Op.entJoin 1 1]).setEntry { id := 1, userId := 1, standQueueId := 0, status := EntryStatus.Active, completedAt := false }).setStand
             { id := 0, enterpriseId := 1, status := StandStatus.Open, currentParticipants := 1 + 1, totalProcessed := max 0 (0 - 1) },
           ApiResult.success)
        else
          ((run DB.init [Op.entJoin 1 1]).setEntry { id := 1, userId := 1, standQueueId := 0, status := EntryStatus.Active, completedAt := false },
           ApiResult.serverError) :=
  uncomplete_no_invalid_state_guard (run DB.init [Op.entJoin 1 1]) 1
    { id := 1, userId := 1, standQueueId := 0, status := EntryStatus.Active, completedAt := false }
    { id := 0, enterpriseId := 1, status := StandStatus.Open, currentParticipants := 1, totalProcessed := 0 }
    (by decide) (by decide) (by decide)

/-- C4 counterexample: uncompleting an entry that is Active (not
Completed) is not rejected with InvalidState: it succeeds and increments
the stand counter. -/
theorem uncomplete_of_active_entry_succeeds :
    (run DB.init [Op.entJoin 1 1]).findEntryByPk 1
        = some { id := 1, userId := 1, standQueueId := 0, status := EntryStatus.Active, completedAt := false }
      ∧ (uncompleteEntry (run DB.init [Op.entJoin 1 1]) 1).2 = ApiResult.success
      ∧ (uncompleteEntry (run DB.init [Op.entJoin 1 1]) 1).1.findStandByPk 0
        = some { id := 0, enterpriseId := 1, status := StandStatus.Open, currentParticipants := 2, totalProcessed := 0 } := by
  decide

/-- C6 (amended): on the generic queues path a join that targets a Closed
stand is always denied — with the participant-limit message or the
not-available message — and nothing is mutated.  The enterprise join path
performs no status check (see the counterexample). -/
theorem queues_join_denies_closed_stand (db : DB) (u eid : Nat)
    (s : StandQueue)
    (hfind : db.findStandByEnterprise eid = some s)
    (hclosed : s.status = StandStatus.Closed) :
    (joinQueue db u eid).1 = db
      ∧ ((joinQueue db u eid).2
            = ApiResult.clientError "You can only be in 2 queues at a time"
         ∨ (joinQueue db u eid).2
            = ApiResult.clientError "This stand queue is not available") := by
  simp only [joinQueue, hfind]
  by_cases h2 : 2 ≤ db.countActiveEntries u
  · rw [if_pos h2]
    exact ⟨rfl, Or.inl rfl⟩
  · rw [if_neg h2, if_pos hclosed]
    exact ⟨rfl, Or.inr rfl⟩

theorem queues_join_denies_closed_stand_witness :
    (joinQueue (run DB.init [Op.stand 7 (some StandStatus.Closed) (some 0)]) 1 7).1
        = run DB.init [Op.stand 7 (some StandStatus.Closed) (some 0)]
      ∧ ((joinQueue (run DB.init [Op.stand 7 (some StandStatus.Closed) (some 0)]) 1 7).2
            = ApiResult.clientError "You can only be in 2 queues at a time"
         ∨ (joinQueue (run DB.init [Op.stand 7 (some StandStatus.Closed) (some 0)]) 1 7).2
            = ApiResult.clientError "This stand queue is not available") :=
  queues_join_denies_closed_stand (run DB.init [Op.stand 7 (some StandStatus.Closed) (some 0)]) 1 7
    { id := 0, enterpriseId := 7, status := StandStatus.Closed, currentParticipants := 0, totalProcessed := 0 }
    (by decide) (by decide)

/-- C6 counterexample: the enterprise join path admits a join to a Closed
stand (no status check): the entry is created and the counter
incremented. -/
theorem enterprise_join_admits_closed_stand :
    (run DB.init [Op.stand 7 (some StandStatus.Closed) (some 0)]).findStandByEnterprise 7
        = some { id := 0, enterpriseId := 7, status := StandStatus.Closed, currentParticipants := 0, totalProcessed := 0 }
      ∧ (enterpriseJoin (run DB.init [Op.stand 7 (some StandStatus.Closed) (some 0)]) 1 7).2
        = ApiResult.okEntry { id := 1, userId := 1, standQueueId := 0, status := EntryStatus.Active, completedAt := false }
      ∧ (enterpriseJoin (run DB.init [Op.stand 7 (some StandStatus.Closed) (some 0)]) 1 7).1.findStandByEnterprise 7
        = some { id := 0, enterpriseId := 7, status := StandStatus.Closed, currentParticipants := 1, totalProcessed := 0 } := by
  decide

/-- C7 (amended): on the generic queues path a join is rejected with the
participant-limit message exactly when the caller already holds 2
Waiting/Active entries, and a participant can hold Waiting entries on two
different stands; the enterprise path instead denies as soon as the caller
holds a single Active entry (see the counterexample). -/
theorem queues_join_participant_limit_iff (db : DB) (u eid : Nat) :
    ((joinQueue db u eid).2
        = ApiResult.clientError "You can only be in 2 queues at a time"
      ↔ 2 ≤ db.countActiveEntries u)
      ∧ (run DB.init [Op.stand 1 none none, Op.stand 2 none none,
          Op.join 5 1, Op.join 5 2]).entries
        = [{ id := 2, userId := 5, standQueueId := 0, status := EntryStatus.Waiting, completedAt := false },
           { id := 3, userId := 5, standQueueId := 1, status := EntryStatus.Waiting, completedAt := false }] := by
  constructor
  · constructor
    · intro hres
      by_cases h2 : 2 ≤ db.countActiveEntries u
      · exact h2
      · exfalso
        simp only [joinQueue] at hres
        rw [if_neg h2] at hres
        cases hfind : db.findStandByEnterprise eid with
        | none =>
          simp only [hfind] at hres
          have hres2 : ApiResult.clientError "This stand queue is not available"
              = ApiResult.clientError "You can only be in 2 queues at a time" := hres
          injection hres2 with h
          exact absurd h (by decide)
        | some s =>
          simp only [hfind] at hres
          by_cases hc : s.status = StandStatus.Closed
          · rw [if_pos hc] at hres
            have hres2 : ApiResult.clientError "This stand queue is not available"
                = ApiResult.clientError "You can only be in 2 queues at a time" := hres
            injection hres2 with h
            exact absurd h (by decide)
          · rw [if_neg hc] at hres
            by_cases hf : s.status = StandStatus.Full ∧ 4 ≤ s.currentParticipants
            · rw [if_pos hf] at hres
              have hres2 : ApiResult.clientError "This stand queue is full"
                  = ApiResult.clientError "You can only be in 2 queues at a time" := hres
              injection hres2 with h
              exact absurd h (by decide)
            · rw [if_neg hf] at hres
              have hres2 : ApiResult.okEntry { id := db.nextId, userId := u, standQueueId := s.id, status := EntryStatus.Waiting, completedAt := false }
                  = ApiResult.clientError "You can only be in 2 queues at a time" := hres
              exact ApiResult.noConfusion hres2
    · intro h2
      simp only [joinQueue]
      rw [if_pos h2]
  · decide

/-- C7 counterexample: on the enterprise path a participant with a single
Active entry — fewer than 2 — is already denied, so the limit-2 rule does
not hold there and two simultaneous enterprise entries are impossible. -/
theorem enterprise_join_denies_with_one_active_entry :
    (run DB.init [Op.entJoin 1 1]).countActiveEntries 1 = 1
      ∧ enterpriseJoin (run DB.init [Op.entJoin 1 1]) 1 2
        = (run DB.init [Op.entJoin 1 1],
           ApiResult.clientError "You are already in an active queue") := by
  decide

theorem findStandByEnterprise_setStand {db : DB} {eid : Nat}
    {s s2 : StandQueue} (h : db.findStandByEnterprise eid = some s)
    (hid : s2.id = s.id) (hej : s2.enterpriseId = eid) :
    (db.setStand s2).findStandByEnterprise eid = some s2 := by
  unfold DB.findStandByEnterprise at h ⊢
  simp only [DB.setStand]
  apply find?_map_update _ _ s s2 _ (by simp [hej]) _ _ h
  · show (if s.id = s2.id then s2 else s) = s2
    rw [if_pos hid.symm]
  · intro t
    by_cases hk : t.id = s2.id
    · rw [if_pos hk]
      exact Or.inr rfl
    · rw [if_neg hk]
      exact Or.inl rfl

theorem findStandByPk_setStand {db : DB} {i : Nat} {s s2 : StandQueue}
    (h : db.findStandByPk i = some s) (hid : s2.id = s.id) :
    (db.setStand s2).findStandByPk i = some s2 := by
  have hsi : s.id = i := (findStandByPk_facts h).2
  unfold DB.findStandByPk at h ⊢
  simp only [DB.setStand]
  apply find?_map_update _ _ s s2 _ (by simp [hid, hsi]) _ _ h
  · show (if s.id = s2.id then s2 else s) = s2
    rw [if_pos hid.symm]
  · intro t
    by_cases hk : t.id = s2.id
    · rw [if_pos hk]
      exact Or.inr rfl
    · rw [if_neg hk]
      exact Or.inl rfl

theorem findEntryByPk_setEntry {db : DB} {i : Nat} {e e2 : QueueEntry}
    (h : db.findEntryByPk i = some e) (hid : e2.id = e.id) :
    (db.setEntry e2).findEntryByPk i = some e2 := by
  have hei : e.id = i := (findEntryByPk_facts h).2
  unfold DB.findEntryByPk at h ⊢
  simp only [DB.setEntry]
  apply find?_map_update _ _ e e2 _ (by simp [hid, hei]) _ _ h
  · show (if e.id = e2.id then e2 else e) = e2
    rw [if_pos hid.symm]
  · intro t
    by_cases hk : t.id = e2.id
    · rw [if_pos hk]
      exact Or.inr rfl
    · rw [if_neg hk]
      exact Or.inl rfl

/-- `find?` commutes with a map that preserves the predicate. -/
theorem find?_map_pres {α : Type} (p : α → Bool) (f : α → α)
    (hp : ∀ t, p (f t) = p t) :
    ∀ l : List α, (l.map f).find? p = (l.find? p).map f := by
  intro l
  induction l with
  | nil => rfl
  | cons b t ih =>
    by_cases hb : p b = true
    · rw [List.map_cons, List.find?_cons_of_pos _ ((hp b).trans hb),
        List.find?_cons_of_pos _ hb]
      rfl
    · rw [List.map_cons, List.find?_cons_of_neg _ (by rw [hp b]; exact hb),
        List.find?_cons_of_neg _ hb]
      exact ih

/-- In a list whose keys are pairwise distinct, two members with equal
keys are the same element. -/
theorem mem_id_inj {α : Type} (k : α → Nat) {l : List α}
    (hnd : (l.map k).Nodup) {a b : α} (ha : a ∈ l) (hb : b ∈ l)
    (hk : k a = k b) : a = b := by
  induction l with
  | nil => exact absurd ha (List.not_mem_nil a)
  | cons c t ih =>
    rw [List.map_cons, List.nodup_cons] at hnd
    rcases List.mem_cons.mp ha with rfl | ha2
    · rcases List.mem_cons.mp hb with rfl | hb2
      · rfl
      · exact absurd (hk ▸ List.mem_map_of_mem k hb2) hnd.1
    · rcases List.mem_cons.mp hb with rfl | hb2
      · exact absurd (hk ▸ List.mem_map_of_mem k ha2) hnd.1
      · exact ih hnd.2 ha2 hb2

theorem activeFind_none (db : DB) (u : Nat)
    (h : ∀ e ∈ db.entries, ¬(e.userId = u ∧ e.status = EntryStatus.Active)) :
    db.entries.find?
        (fun e => decide (e.userId = u) && decide (e.status = EntryStatus.Active))
      = none := by
  apply find?_eq_none_of
  intro x hx
  by_cases hA : x.userId = u
  · have hB : ¬ x.status = EntryStatus.Active := fun hB => h x hx ⟨hA, hB⟩
    simp [hA, hB]
  · simp [hA]

/-- C5 (amended): from a stand at occupancy 1 (the enterprise capacity 2
minus 1), a join succeeds and raises occupancy to 2; the next join attempt
is rejected with the queue-full error; a subsequent leave returns
occupancy to 1.  The stand status field is never written by either
handler: it stays exactly what it was, it is not flipped to Full or back
to Open (see the counterexample). -/
theorem boundary_join_reject_leave_without_status_flip
    (db : DB) (eid u1 u2 : Nat) (s : StandQueue)
    (hfind : db.findStandByEnterprise eid = some s)
    (hpk : db.findStandByPk s.id = some s)
    (hcp : s.currentParticipants = 1)
    (hu1 : ∀ e ∈ db.entries, ¬(e.userId = u1 ∧ e.status = EntryStatus.Active))
    (hu2 : ∀ e ∈ db.entries, ¬(e.userId = u2 ∧ e.status = EntryStatus.Active))
    (hne : u2 ≠ u1) :
    (enterpriseJoin db u1 eid).2
        = ApiResult.okEntry { id := db.nextId, userId := u1, standQueueId := s.id, status := EntryStatus.Active, completedAt := false }
      ∧ (enterpriseJoin db u1 eid).1.findStandByEnterprise eid
        = some { s with currentParticipants := s.currentParticipants + 1 }
      ∧ enterpriseJoin (enterpriseJoin db u1 eid).1 u2 eid
        = ((enterpriseJoin db u1 eid).1,
           ApiResult.clientError "Queue is full (maximum 2 concurrent participants)")
      ∧ (enterpriseLeave (enterpriseJoin db u1 eid).1 u1 eid).2 = ApiResult.success
      ∧ (enterpriseLeave (enterpriseJoin db u1 eid).1 u1 eid).1.findStandByEnterprise eid
        = some s := by
  obtain ⟨hsmem, hsej⟩ := findStandByEnterprise_facts hfind
  have hfa1 := activeFind_none db u1 hu1
  have hfa2 := activeFind_none db u2 hu2
  have h2 : ¬ 2 ≤ s.currentParticipants := by omega
  have hstep1 : enterpriseJoin db u1 eid
      = (DB.setStand { stands := db.stands, entries := db.entries ++ [{ id := db.nextId, userId := u1, standQueueId := s.id, status := EntryStatus.Active, completedAt := false }], nextId := db.nextId + 1 } { s with currentParticipants := s.currentParticipants + 1 },
         ApiResult.okEntry { id := db.nextId, userId := u1, standQueueId := s.id, status := EntryStatus.Active, completedAt := false }) := by
    simp only [enterpriseJoin, hfa1, hfind, Option.getD_some]
    rw [if_neg h2, updateCounts_some_of s (s.currentParticipants + 1)
      s.totalProcessed (by omega) (by omega)]
  rw [hstep1]
  have hb : (DB.setStand { stands := db.stands, entries := db.entries ++ [{ id := db.nextId, userId := u1, standQueueId := s.id, status := EntryStatus.Active, completedAt := false }], nextId := db.nextId + 1 } { s with currentParticipants := s.currentParticipants + 1 }).findStandByEnterprise eid
      = some { s with currentParticipants := s.currentParticipants + 1 } :=
    findStandByEnterprise_setStand hfind rfl hsej
  have hpk2 : (DB.setStand { stands := db.stands, entries := db.entries ++ [{ id := db.nextId, userId := u1, standQueueId := s.id, status := EntryStatus.Active, completedAt := false }], nextId := db.nextId + 1 } { s with currentParticipants := s.currentParticipants + 1 }).findStandByPk s.id
      = some { s with currentParticipants := s.currentParticipants + 1 } :=
    findStandByPk_setStand hpk rfl
  have hDent : (DB.setStand { stands := db.stands, entries := db.entries ++ [{ id := db.nextId, userId := u1, standQueueId := s.id, status := EntryStatus.Active, completedAt := false }], nextId := db.nextId + 1 } { s with currentParticipants := s.currentParticipants + 1 }).entries
      = db.entries ++ [{ id := db.nextId, userId := u1, standQueueId := s.id, status := EntryStatus.Active, completedAt := false }] := rfl
  generalize hgen : DB.setStand { stands := db.stands, entries := db.entries ++ [{ id := db.nextId, userId := u1, standQueueId := s.id, status := EntryStatus.Active, completedAt := false }], nextId := db.nextId + 1 } { s with currentParticipants := s.currentParticipants + 1 } = d at hb hpk2 hDent ⊢
  have hfa2b : d.entries.find?
      (fun e => decide (e.userId = u2) && decide (e.status = EntryStatus.Active))
        = none := by
    rw [hDent, find?_append_left_none _ _ _ hfa2,
      List.find?_cons_of_neg _ (by simp; omega)]
    rfl
  have hnone1 : db.entries.find? (leavePred d u1 eid) = none := by
    apply find?_eq_none_of
    intro x hx
    unfold leavePred
    by_cases hA : x.userId = u1
    · have hB : ¬ x.status = EntryStatus.Active := fun hB => hu1 x hx ⟨hA, hB⟩
      simp [hB]
    · simp [hA]
  have hp1 : leavePred d u1 eid { id := db.nextId, userId := u1, standQueueId := s.id, status := EntryStatus.Active, completedAt := false } = true := by
    unfold leavePred
    dsimp only
    rw [hpk2]
    simp [hsej]
  have hfl : d.entries.find? (leavePred d u1 eid)
      = some { id := db.nextId, userId := u1, standQueueId := s.id, status := EntryStatus.Active, completedAt := false } := by
    rw [hDent, find?_append_left_none _ _ _ hnone1,
      List.find?_cons_of_pos _ hp1]
  have hstep3 : enterpriseLeave d u1 eid
      = ((d.setEntry { id := db.nextId, userId := u1, standQueueId := s.id, status := EntryStatus.Left, completedAt := false }).setStand { id := s.id, enterpriseId := s.enterpriseId, status := s.status, currentParticipants := max 0 (s.currentParticipants + 1 - 1), totalProcessed := s.totalProcessed },
         ApiResult.success) := by
    simp only [enterpriseLeave, hfl, hpk2,
      updateCounts_some_of { s with currentParticipants := s.currentParticipants + 1 }
        (max 0 (s.currentParticipants + 1 - 1)) s.totalProcessed
        (by omega) (by omega)]
  refine ⟨rfl, hb, ?_, ?_, ?_⟩
  · simp only [enterpriseJoin, hfa2b, hb, Option.getD_some]
    rw [if_pos (show (2:Int) ≤ ({ s with currentParticipants := s.currentParticipants + 1 } : StandQueue).currentParticipants from by dsimp only; omega)]
  · rw [hstep3]
  · rw [hstep3]
    dsimp only
    have hbe : ((d.setEntry { id := db.nextId, userId := u1, standQueueId := s.id, status := EntryStatus.Left, completedAt := false }).findStandByEnterprise eid)
        = some { s with currentParticipants := s.currentParticipants + 1 } := hb
    have hfinal := findStandByEnterprise_setStand hbe
      (show ({ id := s.id, enterpriseId := s.enterpriseId, status := s.status, currentParticipants := max 0 (s.currentParticipants + 1 - 1), totalProcessed := s.totalProcessed } : StandQueue).id = ({ s with currentParticipants := s.currentParticipants + 1 } : StandQueue).id from rfl)
      (show ({ id := s.id, enterpriseId := s.enterpriseId, status := s.status, currentParticipants := max 0 (s.currentParticipants + 1 - 1), totalProcessed := s.totalProcessed } : StandQueue).enterpriseId = eid from hsej)
    rw [hfinal,
      show max 0 (s.currentParticipants + 1 - 1) = s.currentParticipants from by omega]

theorem boundary_join_reject_leave_without_status_flip_witness :
    (enterpriseJoin (run DB.init [Op.entJoin 9 1]) 1 1).2
        = ApiResult.okEntry { id := 2, userId := 1, standQueueId := 0, status := EntryStatus.Active, completedAt := false }
      ∧ (enterpriseJoin (run DB.init [Op.entJoin 9 1]) 1 1).1.findStandByEnterprise 1
        = some { id := 0, enterpriseId := 1, status := StandStatus.Open, currentParticipants := 2, totalProcessed := 0 }
      ∧ enterpriseJoin (enterpriseJoin (run DB.init [Op.entJoin 9 1]) 1 1).1 2 1
        = ((enterpriseJoin (run DB.init [Op.entJoin 9 1]) 1 1).1,
           ApiResult.clientError "Queue is full (maximum 2 concurrent participants)")
      ∧ (enterpriseLeave (enterpriseJoin (run DB.init [Op.entJoin 9 1]) 1 1).1 1 1).2
        = ApiResult.success
      ∧ (enterpriseLeave (enterpriseJoin (run DB.init [Op.entJoin 9 1]) 1 1).1 1 1).1.findStandByEnterprise 1
        = some { id := 0, enterpriseId := 1, status := StandStatus.Open, currentParticipants := 1, totalProcessed := 0 } :=
  boundary_join_reject_leave_without_status_flip (run DB.init [Op.entJoin 9 1]) 1 1 2
    { id := 0, enterpriseId := 1, status := StandStatus.Open, currentParticipants := 1, totalProcessed := 0 }
    (by decide) (by decide) (by decide) (by decide) (by decide) (by decide)

/-- C5 counterexample: a stand brought to full occupancy 2 by joins keeps
status Open — the handlers never flip the status to Full (nor back). -/
theorem join_to_capacity_keeps_status_open :
    (run DB.init [Op.entJoin 1 5, Op.entJoin 2 5]).findStandByEnterprise 5
        = some { id := 0, enterpriseId := 5, status := StandStatus.Open, currentParticipants := 2, totalProcessed := 0 }
      ∧ StandStatus.Open ≠ StandStatus.Full := by
  decide

/-- C8 (amended): for a participant whose sole entry matching the leave
lookup on this stand is Active (entries the participant may hold on other
stands are unconstrained), leave succeeds once — decrementing occupancy by
exactly 1 — and a second leave fails NotInQueue without further mutation.
A Waiting entry is never matched by the leave lookup, so for it even the
first call fails (see the counterexample). -/
theorem leave_twice_on_active_entry (db : DB) (u eid : Nat)
    (e : QueueEntry) (s : StandQueue)
    (hfe : db.entries.find? (leavePred db u eid) = some e)
    (huniq : ∀ x ∈ db.entries, leavePred db u eid x = true → x = e)
    (hsnd : (db.stands.map (fun t => t.id)).Nodup)
    (hs : db.findStandByPk e.standQueueId = some s)
    (h1 : 1 ≤ s.currentParticipants) (h4 : s.currentParticipants ≤ 4) :
    (enterpriseLeave db u eid).2 = ApiResult.success
      ∧ (enterpriseLeave db u eid).1.findStandByPk e.standQueueId
        = some { s with currentParticipants := s.currentParticipants - 1 }
      ∧ enterpriseLeave (enterpriseLeave db u eid).1 u eid
        = ((enterpriseLeave db u eid).1, ApiResult.notFound "You are not in this queue") := by
  obtain ⟨hsmem, hsid⟩ := findStandByPk_facts hs
  have hpe := List.find?_some hfe
  unfold leavePred at hpe
  rw [Bool.and_eq_true, Bool.and_eq_true] at hpe
  obtain ⟨⟨hpu, hpa⟩, hpstand⟩ := hpe
  simp only [hs] at hpstand
  have hsej : s.enterpriseId = eid := of_decide_eq_true hpstand
  have hstep : enterpriseLeave db u eid
      = ((db.setEntry { e with status := EntryStatus.Left }).setStand { id := s.id, enterpriseId := s.enterpriseId, status := s.status, currentParticipants := max 0 (s.currentParticipants - 1), totalProcessed := s.totalProcessed },
         ApiResult.success) := by
    simp only [enterpriseLeave, hfe, hs,
      updateCounts_some_of s (max 0 (s.currentParticipants - 1)) s.totalProcessed
        (by omega) (by omega)]
  rw [hstep]
  dsimp only
  generalize hgen : (db.setEntry { e with status := EntryStatus.Left }).setStand { id := s.id, enterpriseId := s.enterpriseId, status := s.status, currentParticipants := max 0 (s.currentParticipants - 1), totalProcessed := s.totalProcessed } = d
  have hdent : d.entries
      = db.entries.map (fun t => if t.id = ({ e with status := EntryStatus.Left } : QueueEntry).id then { e with status := EntryStatus.Left } else t) := by
    rw [← hgen]
    rfl
  have hdpk : d.findStandByPk e.standQueueId
      = some { id := s.id, enterpriseId := s.enterpriseId, status := s.status, currentParticipants := max 0 (s.currentParticipants - 1), totalProcessed := s.totalProcessed } := by
    rw [← hgen]
    exact findStandByPk_setStand
      (show (db.setEntry { e with status := EntryStatus.Left }).findStandByPk e.standQueueId = some s from hs)
      rfl
  have hmapPk : ∀ i, d.findStandByPk i
      = (db.findStandByPk i).map (fun t => if t.id = ({ id := s.id, enterpriseId := s.enterpriseId, status := s.status, currentParticipants := max 0 (s.currentParticipants - 1), totalProcessed := s.totalProcessed } : StandQueue).id then { id := s.id, enterpriseId := s.enterpriseId, status := s.status, currentParticipants := max 0 (s.currentParticipants - 1), totalProcessed := s.totalProcessed } else t) := by
    intro i
    rw [← hgen]
    unfold DB.findStandByPk
    simp only [DB.setStand, DB.setEntry]
    refine find?_map_pres _ _ (fun t => ?_) db.stands
    by_cases hk2 : t.id = ({ id := s.id, enterpriseId := s.enterpriseId, status := s.status, currentParticipants := max 0 (s.currentParticipants - 1), totalProcessed := s.totalProcessed } : StandQueue).id
    · rw [if_pos hk2, hk2]
    · rw [if_neg hk2]
  have hnone2 : d.entries.find? (leavePred d u eid) = none := by
    rw [hdent]
    apply find?_eq_none_of
    intro x hx
    rcases List.mem_map.mp hx with ⟨t, ht, hxt⟩
    by_cases hk : t.id = ({ e with status := EntryStatus.Left } : QueueEntry).id
    · rw [if_pos hk] at hxt
      rw [← hxt]
      unfold leavePred
      simp
    · rw [if_neg hk] at hxt
      rw [← hxt]
      unfold leavePred
      by_cases hA : t.userId = u
      · by_cases hB : t.status = EntryStatus.Active
        · rw [hmapPk t.standQueueId]
          cases hdb : db.findStandByPk t.standQueueId with
          | none => simp
          | some t0 =>
            simp only [Option.map_some']
            by_cases hEj : t0.enterpriseId = eid
            · have hpdb : leavePred db u eid t = true := by
                unfold leavePred
                rw [hdb]
                simp [hA, hB, hEj]
              exact absurd (huniq t ht hpdb) (fun hteq => hk (by rw [hteq]))
            · by_cases hk0 : t0.id = ({ id := s.id, enterpriseId := s.enterpriseId, status := s.status, currentParticipants := max 0 (s.currentParticipants - 1), totalProcessed := s.totalProcessed } : StandQueue).id
              · have ht0s : t0 = s :=
                  mem_id_inj (fun t => t.id) hsnd (findStandByPk_facts hdb).1 hsmem hk0
                exact absurd (ht0s.symm ▸ hsej) hEj
              · rw [if_neg hk0]
                simp [hEj]
        · simp [hB]
      · simp [hA]
  refine ⟨rfl, ?_, ?_⟩
  · rw [hdpk,
      show max 0 (s.currentParticipants - 1) = s.currentParticipants - 1 from by omega]
  · simp only [enterpriseLeave, hnone2]

theorem leave_twice_on_active_entry_witness :
    (enterpriseLeave (run DB.init [Op.entJoin 1 4]) 1 4).2 = ApiResult.success
      ∧ (enterpriseLeave (run DB.init [Op.entJoin 1 4]) 1 4).1.findStandByPk 0
        = some { id := 0, enterpriseId := 4, status := StandStatus.Open, currentParticipants := 0, totalProcessed := 0 }
      ∧ enterpriseLeave (enterpriseLeave (run DB.init [Op.entJoin 1 4]) 1 4).1 1 4
        = ((enterpriseLeave (run DB.init [Op.entJoin 1 4]) 1 4).1,
           ApiResult.notFound "You are not in this queue") :=
  leave_twice_on_active_entry (run DB.init [Op.entJoin 1 4]) 1 4
    { id := 1, userId := 1, standQueueId := 0, status := EntryStatus.Active, completedAt := false }
    { id := 0, enterpriseId := 4, status := StandStatus.Open, currentParticipants := 1, totalProcessed := 0 }
    (by decide) (by decide) (by decide) (by decide) (by decide) (by decide)

/-- C8 counterexample: a participant holding exactly one Waiting entry on
the stand gets NotInQueue already on the first leave — the lookup only
matches Active entries — and occupancy does not change at all. -/
theorem leave_of_waiting_entry_not_found :
    (run DB.init [Op.stand 7 (some StandStatus.Open) (some 1), Op.join 1 7]).entries
        = [{ id := 1, userId := 1, standQueueId := 0, status := EntryStatus.Waiting, completedAt := false }]
      ∧ enterpriseLeave (run DB.init [Op.stand 7 (some StandStatus.Open) (some 1), Op.join 1 7]) 1 7
        = (run DB.init [Op.stand 7 (some StandStatus.Open) (some 1), Op.join 1 7],
           ApiResult.notFound "You are not in this queue") := by
  decide

/-- C9 (amended): complete followed by uncomplete on the same entry
restores entry.status to Active, currentParticipants to its pre-complete
value and totalProcessed to its pre-complete value, provided the stand
held at least one participant before the complete (the floor at 0 in
complete otherwise loses the decrement — see the counterexample). -/
theorem complete_uncomplete_roundtrip_restores (db : DB) (qid : Nat)
    (e : QueueEntry) (s : StandQueue)
    (he : db.findEntryByPk qid = some e)
    (hs : db.findStandByPk e.standQueueId = some s)
    (h1 : 1 ≤ s.currentParticipants) (h4 : s.currentParticipants ≤ 4)
    (htp : 0 ≤ s.totalProcessed) :
    (uncompleteEntry (completeEntry db qid).1 qid).2 = ApiResult.success
      ∧ (uncompleteEntry (completeEntry db qid).1 qid).1.findEntryByPk qid
        = some { e with status := EntryStatus.Active, completedAt := false }
      ∧ (uncompleteEntry (completeEntry db qid).1 qid).1.findStandByPk e.standQueueId
        = some s := by
  have hstep1 : completeEntry db qid
      = ((db.setEntry { e with status := EntryStatus.Completed, completedAt := true }).setStand { id := s.id, enterpriseId := s.enterpriseId, status := s.status, currentParticipants := max 0 (s.currentParticipants - 1), totalProcessed := s.totalProcessed + 1 },
         ApiResult.success) := by
    simp only [completeEntry, he, hs,
      updateCounts_some_of s (max 0 (s.currentParticipants - 1))
        (s.totalProcessed + 1) (by omega) (by omega)]
  rw [hstep1]
  dsimp only
  have he1 : ((db.setEntry { e with status := EntryStatus.Completed, completedAt := true }).setStand { id := s.id, enterpriseId := s.enterpriseId, status := s.status, currentParticipants := max 0 (s.currentParticipants - 1), totalProcessed := s.totalProcessed + 1 }).findEntryByPk qid
      = some { e with status := EntryStatus.Completed, completedAt := true } :=
    findEntryByPk_setEntry he rfl
  have hs1 : ((db.setEntry { e with status := EntryStatus.Completed, completedAt := true }).setStand { id := s.id, enterpriseId := s.enterpriseId, status := s.status, currentParticipants := max 0 (s.currentParticipants - 1), totalProcessed := s.totalProcessed + 1 }).findStandByPk e.standQueueId
      = some { id := s.id, enterpriseId := s.enterpriseId, status := s.status, currentParticipants := max 0 (s.currentParticipants - 1), totalProcessed := s.totalProcessed + 1 } :=
    findStandByPk_setStand
      (show (db.setEntry { e with status := EntryStatus.Completed, completedAt := true }).findStandByPk e.standQueueId = some s from hs)
      rfl
  generalize hgen : (db.setEntry { e with status := EntryStatus.Completed, completedAt := true }).setStand { id := s.id, enterpriseId := s.enterpriseId, status := s.status, currentParticipants := max 0 (s.currentParticipants - 1), totalProcessed := s.totalProcessed + 1 } = d at he1 hs1 ⊢
  have hstep2 : uncompleteEntry d qid
      = ((d.setEntry { e with status := EntryStatus.Active, completedAt := false }).setStand { id := s.id, enterpriseId := s.enterpriseId, status := s.status, currentParticipants := max 0 (s.currentParticipants - 1) + 1, totalProcessed := max 0 (s.totalProcessed + 1 - 1) },
         ApiResult.success) := by
    simp only [uncompleteEntry, he1, hs1,
      updateCounts_some_of { id := s.id, enterpriseId := s.enterpriseId, status := s.status, currentParticipants := max 0 (s.currentParticipants - 1), totalProcessed := s.totalProcessed + 1 }
        (max 0 (s.currentParticipants - 1) + 1) (max 0 (s.totalProcessed + 1 - 1))
        (by omega) (by omega)]
  rw [hstep2]
  refine ⟨rfl, ?_, ?_⟩
  · exact findEntryByPk_setEntry he1 rfl
  · have hsx := findStandByPk_setStand
      (show (d.setEntry { e with status := EntryStatus.Active, completedAt := false }).findStandByPk e.standQueueId = some { id := s.id, enterpriseId := s.enterpriseId, status := s.status, currentParticipants := max 0 (s.currentParticipants - 1), totalProcessed := s.totalProcessed + 1 } from hs1)
      (show ({ id := s.id, enterpriseId := s.enterpriseId, status := s.status, currentParticipants := max 0 (s.currentParticipants - 1) + 1, totalProcessed := max 0 (s.totalProcessed + 1 - 1) } : StandQueue).id = ({ id := s.id, enterpriseId := s.enterpriseId, status := s.status, currentParticipants := max 0 (s.currentParticipants - 1), totalProcessed := s.totalProcessed + 1 } : StandQueue).id from rfl)
    rw [hsx,
      show max 0 (s.currentParticipants - 1) + 1 = s.currentParticipants from by omega,
      show max 0 (s.totalProcessed + 1 - 1) = s.totalProcessed from by omega]

theorem complete_uncomplete_roundtrip_restores_witness :
    (uncompleteEntry (completeEntry (run DB.init [Op.entJoin 1 1]) 1).1 1).2
        = ApiResult.success
      ∧ (uncompleteEntry (completeEntry (run DB.init [Op.entJoin 1 1]) 1).1 1).1.findEntryByPk 1
        = some { id := 1, userId := 1, standQueueId := 0, status := EntryStatus.Active, completedAt := false }
      ∧ (uncompleteEntry (completeEntry (run DB.init [Op.entJoin 1 1]) 1).1 1).1.findStandByPk 0
        = some { id := 0, enterpriseId := 1, status := StandStatus.Open, currentParticipants := 1, totalProcessed := 0 } :=
  complete_uncomplete_roundtrip_restores (run DB.init [Op.entJoin 1 1]) 1
    { id := 1, userId := 1, standQueueId := 0, status := EntryStatus.Active, completedAt := false }
    { id := 0, enterpriseId := 1, status := StandStatus.Open, currentParticipants := 1, totalProcessed := 0 }
    (by decide) (by decide) (by decide) (by decide) (by decide)

/-- C9 counterexample: when occupancy is 0 before the complete, the floor
at 0 swallows the decrement of complete but uncomplete still increments,
so the round trip ends at occupancy 1, not the pre-complete 0. -/
theorem roundtrip_at_zero_occupancy_not_restored :
    (run DB.init [Op.entJoin 1 1, Op.complete 1]).findStandByPk 0
        = some { id := 0, enterpriseId := 1, status := StandStatus.Open, currentParticipants := 0, totalProcessed := 1 }
      ∧ (uncompleteEntry (completeEntry (run DB.init [Op.entJoin 1 1, Op.complete 1]) 1).1 1).1.findStandByPk 0
        = some { id := 0, enterpriseId := 1, status := StandStatus.Open, currentParticipants := 1, totalProcessed := 1 }
      ∧ (0 : Int) ≠ 1 := by
  decide

theorem queues_join_participant_limit_iff_witness :
    (joinQueue (run DB.init [Op.stand 1 none none, Op.stand 2 none none,
        Op.join 5 1, Op.join 5 2]) 5 3).2
      = ApiResult.clientError "You can only be in 2 queues at a time" :=
  (queues_join_participant_limit_iff (run DB.init [Op.stand 1 none none,
      Op.stand 2 none none, Op.join 5 1, Op.join 5 2]) 5 3).1.mpr (by decide)
